import Mathlib

/-!
Shallow embedding of the ingestion and enrichment pipeline of the jobs
backend (FastAPI + Supabase).  The Supabase tables `jobs` and
`scraping_logs` become Lean lists inside an explicit `DB` state, every
fallible external call is driven by an explicit per-call fault profile,
and the AI / embedding capabilities are an explicit deterministic
oracle.  The SHA-256 digest is an arbitrary function parameter
`H : String → String`, since only equality of digests matters to the
pipeline.
-/

/-- One prep question produced by the generation capability
(`PrepQuestion` pydantic model, serialised by `model_dump`). -/
structure PrepQ where
  question : String
  answer_strategy : String
  deriving DecidableEq

/-- Output of `AIPort.generate_enrichment`. -/
structure GenOut where
  resume_guide : List String
  prep_questions : List PrepQ
  extracted_skills : List String
  estimated_salary_range : String
  deriving DecidableEq

/-- Deterministic model of the external AI and embedding capabilities:
`gen` takes (description, skills, title, company_name), `emb` takes the
description text. -/
structure Oracle where
  gen : String → List String → String → String → GenOut
  emb : String → List Int

/-- A raw posting as returned by `ScraperPort.fetch_jobs` (dict keys
used by `IngestionService.ingest_jobs`). -/
structure RawPosting where
  external_id : String
  title : String
  description_raw : String
  company_name : String
  external_apply_url : Option String
  skills_required : List String
  deriving DecidableEq

/-- A row of the `jobs` table, restricted to the columns the pipeline
reads or writes. -/
structure JobRecord where
  id : Nat
  provider_id : String
  title : String
  description_raw : String
  skills_required : List String
  external_id : String
  external_apply_url : Option String
  company_name : String
  description_hash : Option String
  status : String
  resume_guide_generated : Option (List String)
  prep_guide_generated : Option (List PrepQ)
  embedding : Option (List Int)
  salary_range : Option String
  deriving DecidableEq

/-- A row of the `scraping_logs` table. -/
structure ScrapingLog where
  id : Nat
  source_name : String
  status : String
  started_at : Nat
  jobs_found : Option Nat := none
  jobs_new : Option Nat := none
  jobs_skipped : Option Nat := none
  error_count : Option Nat := none
  finished_at : Option Nat := none
  error_message : Option String := none
  traceback : Option String := none
  deriving DecidableEq

/-- The persistent state visible to the pipeline. -/
structure DB where
  jobs : List JobRecord
  nextId : Nat
  logs : List ScrapingLog
  nextLogId : Nat
  deriving DecidableEq

/-- A partial update of a `jobs` row: the dict handed to
`SupabaseAdapter.update_job`.  An outer `none` means the column is not
mentioned in the dict. -/
structure JobUpdate where
  resume_guide_generated : Option (Option (List String)) := none
  prep_guide_generated : Option (Option (List PrepQ)) := none
  skills_required : Option (List String) := none
  embedding : Option (Option (List Int)) := none
  salary_range : Option (Option String) := none
  status : Option String := none
  deriving DecidableEq

/-- A partial update of a `scraping_logs` row. -/
structure LogUpdate where
  status : Option String := none
  jobs_found : Option Nat := none
  jobs_new : Option Nat := none
  jobs_skipped : Option Nat := none
  error_count : Option Nat := none
  finished_at : Option Nat := none
  error_message : Option String := none
  traceback : Option String := none
  deriving DecidableEq

def applyJobUpdate (j : JobRecord) (u : JobUpdate) : JobRecord :=
  { j with
    resume_guide_generated := u.resume_guide_generated.getD j.resume_guide_generated
    prep_guide_generated := u.prep_guide_generated.getD j.prep_guide_generated
    skills_required := u.skills_required.getD j.skills_required
    embedding := u.embedding.getD j.embedding
    salary_range := u.salary_range.getD j.salary_range
    status := u.status.getD j.status }

/-- Set a nullable column to a non-null value when the update dict
mentions it, keep the old value otherwise. -/
def updOpt {α : Type} (new old : Option α) : Option α :=
  match new with
  | none => old
  | some v => some v

def applyLogUpdate (lg : ScrapingLog) (u : LogUpdate) : ScrapingLog :=
  { lg with
    status := u.status.getD lg.status
    jobs_found := updOpt u.jobs_found lg.jobs_found
    jobs_new := updOpt u.jobs_new lg.jobs_new
    jobs_skipped := updOpt u.jobs_skipped lg.jobs_skipped
    error_count := updOpt u.error_count lg.error_count
    finished_at := updOpt u.finished_at lg.finished_at
    error_message := updOpt u.error_message lg.error_message
    traceback := updOpt u.traceback lg.traceback }

/-- `SupabaseAdapter.find_job_by_external_id`: first row matching
(company_name, external_id). -/
def find_job_by_external_id (db : DB) (company ext_id : String) : Option JobRecord :=
  db.jobs.find? (fun j => j.company_name == company && j.external_id == ext_id)

/-- `SupabaseAdapter.find_job_by_description_hash`: first row with the
given description hash whose embedding is not null. -/
def find_job_by_description_hash (db : DB) (h : String) : Option JobRecord :=
  db.jobs.find? (fun j => j.description_hash == some h && !(j.embedding == none))

/-- `SupabaseAdapter.get_job`. -/
def get_job (db : DB) (job_id : Nat) : Option JobRecord :=
  db.jobs.find? (fun j => j.id == job_id)

/-- `SupabaseAdapter.update_job`. -/
def update_job (db : DB) (job_id : Nat) (u : JobUpdate) : DB :=
  { db with jobs := db.jobs.map (fun j => if j.id == job_id then applyJobUpdate j u else j) }

/-- System user UUID owning ingested jobs. -/
def INGESTION_PROVIDER_ID : String := "00000000-0000-4000-a000-000000000001"

/-- `SupabaseAdapter.create_job` applied to the dict built in
`ingest_jobs` step 2: inserts a fresh row with status `processing` and
no enrichment data, returning the created row. -/
def create_job (db : DB) (p : RawPosting) (desc_hash : Option String) : JobRecord × DB :=
  let j : JobRecord :=
    { id := db.nextId
      provider_id := INGESTION_PROVIDER_ID
      title := p.title
      description_raw := p.description_raw
      skills_required := p.skills_required
      external_id := p.external_id
      external_apply_url := p.external_apply_url
      company_name := p.company_name
      description_hash := desc_hash
      status := "processing"
      resume_guide_generated := none
      prep_guide_generated := none
      embedding := none
      salary_range := none }
  (j, { db with jobs := db.jobs ++ [j], nextId := db.nextId + 1 })

/-- `SupabaseAdapter.insert_scraping_log` applied to the dict built at
the start of `ingest_jobs`: status `running`, started_at set. -/
def insert_scraping_log (db : DB) (source : String) (t : Nat) : Nat × DB :=
  let lg : ScrapingLog :=
    { id := db.nextLogId, source_name := source, status := "running", started_at := t }
  (lg.id, { db with logs := db.logs ++ [lg], nextLogId := db.nextLogId + 1 })

/-- `SupabaseAdapter.update_scraping_log`. -/
def update_scraping_log (db : DB) (log_id : Nat) (u : LogUpdate) : DB :=
  { db with logs := db.logs.map (fun lg => if lg.id == log_id then applyLogUpdate lg u else lg) }

def get_scraping_log (db : DB) (log_id : Nat) : Option ScrapingLog :=
  db.logs.find? (fun lg => lg.id == log_id)

/-- Which external calls raise during the handling of one posting /
one record.  `false` everywhere means no call raises. -/
structure Faults where
  findByExtId : Bool := false
  createJob : Bool := false
  findByHash : Bool := false
  updateClone : Bool := false
  updateActive : Bool := false
  getJob : Bool := false
  gen : Bool := false
  emb : Bool := false
  updEnrich : Bool := false
  deriving DecidableEq

def noFaults : Faults := {}

/-- Count of calls made to the generation and embedding capabilities. -/
structure Eff where
  genCalls : Nat := 0
  embCalls : Nat := 0
  deriving DecidableEq

def Eff.add (a b : Eff) : Eff :=
  { genCalls := a.genCalls + b.genCalls, embCalls := a.embCalls + b.embCalls }

/-- `EnrichmentService.enrich_job`: fetch the record by id; if absent,
log and return; call the generation capability, then the embedding
capability, then persist guide, questions, skills, embedding and salary
in one `update_job` call.  The whole body sits in a try/except that
catches every exception, so the function always returns a state; a
fault at any point leaves the state unchanged (the single write is all
or nothing).  The returned `Eff` counts capability calls made,
including a call that raised. -/
def enrich_job (O : Oracle) (f : Faults) (db : DB) (job_id : Nat) : DB × Eff :=
  if f.getJob then (db, {}) else
  match get_job db job_id with
  | none => (db, {})
  | some job =>
    let description := job.description_raw
    let skills := job.skills_required
    if f.gen then (db, { genCalls := 1 }) else
    let enr := O.gen description skills job.title job.company_name
    if f.emb then (db, { genCalls := 1, embCalls := 1 }) else
    let embedding := O.emb description
    let final_skills := if skills.isEmpty then enr.extracted_skills else skills
    if f.updEnrich then (db, { genCalls := 1, embCalls := 1 }) else
    (update_job db job_id
      { resume_guide_generated := some (some enr.resume_guide)
        prep_guide_generated := some (some enr.prep_questions)
        skills_required := some final_skills
        embedding := some (some embedding)
        salary_range := some (some enr.estimated_salary_range) },
     { genCalls := 1, embCalls := 1 })

/-- How one posting was accounted for in the stats dict. -/
inductive Outcome where
  | skipped
  | newDedup
  | newEnrich
  | errored
  deriving DecidableEq

/-- The dict written on a hash-dedup hit: donor enrichment fields plus
status active; salary_range and skills_required are not mentioned. -/
def cloneUpdate (donor : JobRecord) : JobUpdate :=
  { resume_guide_generated := some donor.resume_guide_generated
    prep_guide_generated := some donor.prep_guide_generated
    embedding := some donor.embedding
    status := some "active" }

def statusActive : JobUpdate := { status := some "active" }

/-- The tail of the per-posting body when no dedup hit occurred: run
full enrichment on the created record, then set its status active. -/
def enrichPath (O : Oracle) (f : Faults) (db1 : DB) (created_id : Nat) : DB × Outcome × Eff :=
  let de := enrich_job O f db1 created_id
  if f.updateActive then (de.1, Outcome.errored, de.2)
  else (update_job de.1 created_id statusActive, Outcome.newEnrich, de.2)

/-- The body of the per-posting loop of `IngestionService.ingest_jobs`
(one iteration, inside the per-posting try/except): identity dedup,
hash computation, insert, hash dedup with enrichment cloning, or full
enrichment plus activation.  A fault at any call yields
`Outcome.errored` with the state as already mutated. -/
def processPosting (H : String → String) (O : Oracle) (db : DB)
    (p : RawPosting) (f : Faults) : DB × Outcome × Eff :=
  if f.findByExtId then (db, Outcome.errored, {}) else
  match find_job_by_external_id db p.company_name p.external_id with
  | some _ => (db, Outcome.skipped, {})
  | none =>
    let desc_hash := if p.description_raw == "" then none else some (H p.description_raw)
    if f.createJob then (db, Outcome.errored, {}) else
    let cd := create_job db p desc_hash
    match desc_hash with
    | some h =>
      if h == "" then enrichPath O f cd.2 cd.1.id else
      if f.findByHash then (cd.2, Outcome.errored, {}) else
      match find_job_by_description_hash cd.2 h with
      | some donor =>
        if f.updateClone then (cd.2, Outcome.errored, {}) else
        (update_job cd.2 cd.1.id (cloneUpdate donor), Outcome.newDedup, {})
      | none => enrichPath O f cd.2 cd.1.id
    | none => enrichPath O f cd.2 cd.1.id

/-- The stats dict of `ingest_jobs`. -/
structure Stats where
  fetched : Nat := 0
  new : Nat := 0
  skipped : Nat := 0
  errors : Nat := 0
  dedup_hits : Nat := 0
  deriving DecidableEq

def applyOutcome (s : Stats) : Outcome → Stats
  | Outcome.skipped => { s with skipped := s.skipped + 1 }
  | Outcome.newDedup => { s with new := s.new + 1, dedup_hits := s.dedup_hits + 1 }
  | Outcome.newEnrich => { s with new := s.new + 1 }
  | Outcome.errored => { s with errors := s.errors + 1 }

structure LoopState where
  db : DB
  stats : Stats
  eff : Eff
  deriving DecidableEq

def ingestStep (H : String → String) (O : Oracle) (st : LoopState)
    (pf : RawPosting × Faults) : LoopState :=
  let r := processPosting H O st.db pf.1 pf.2
  { db := r.1, stats := applyOutcome st.stats r.2.1, eff := st.eff.add r.2.2 }

def ingestLoop (H : String → String) (O : Oracle)
    (l : List (RawPosting × Faults)) (st : LoopState) : LoopState :=
  l.foldl (ingestStep H O) st

/-- A raised exception from `ScraperPort.fetch_jobs`, with the message
and the formatted traceback. -/
structure FetchFail where
  msg : String
  tb : String
  deriving DecidableEq

/-- Return value of `ingest_jobs`: the stats dict, the extra `error`
key present only on the fetch-failure path, and the capability-call
counts of the run. -/
structure IngestResult where
  stats : Stats
  error : Option String
  eff : Eff
  deriving DecidableEq

/-- `IngestionService.ingest_jobs`: create the run log, fetch (fail
fast on a fetch exception, marking the log failed and returning all
zero counters plus the error), process each posting inside a local
error boundary, and finalize the log with aggregated counts and the
derived terminal status.  `t0` and `t1` are the clock readings for the
start and the finish of the run. -/
def ingest_jobs (H : String → String) (O : Oracle) (source_name : String)
    (t0 t1 : Nat) (fetched : Except FetchFail (List (RawPosting × Faults)))
    (db : DB) : DB × IngestResult :=
  let ins := insert_scraping_log db source_name t0
  let log_id := ins.1
  let db0 := ins.2
  match fetched with
  | Except.error e =>
    (update_scraping_log db0 log_id
      { status := some "failed", error_message := some e.msg
        traceback := some e.tb, finished_at := some t1 },
     { stats := {}, error := some e.msg, eff := {} })
  | Except.ok raw_jobs =>
    let st := ingestLoop H O raw_jobs
      { db := db0, stats := { fetched := raw_jobs.length }, eff := {} }
    let s := st.stats
    let final_status :=
      if s.errors > 0 ∧ s.new > 0 then "partial"
      else if s.errors > 0 ∧ s.new = 0 then "failed"
      else "success"
    (update_scraping_log st.db log_id
      { status := some final_status, jobs_found := some s.fetched
        jobs_new := some s.new, jobs_skipped := some s.skipped
        error_count := some s.errors, finished_at := some t1 },
     { stats := s, error := none, eff := st.eff })

/-- Python truthiness of a nullable list column: null and the empty
list are both falsy. -/
def isFalsy {α : Type} (o : Option (List α)) : Bool :=
  match o with
  | none => true
  | some l => l.isEmpty

/-- The candidate filter of `_reenrich_unenriched_jobs`: any of prep
guide, resume guide or embedding missing (falsy). -/
def needsEnrichment (j : JobRecord) : Bool :=
  isFalsy j.prep_guide_generated || isFalsy j.resume_guide_generated || isFalsy j.embedding

/-- Outcome of a reconciliation sweep. -/
structure SweepResult where
  db : DB
  success : Nat
  failed : Nat
  deriving DecidableEq

/-- One iteration of the sweep of `_reenrich_unenriched_jobs` over a
snapshot row `j`: run `enrich_job` (which never raises), then repair a
stuck processing status; a raised repair write is caught and counted
as a failure.  `fen` gives the enrichment fault profile and `frep` the
repair-write fault per job id. -/
def sweepStep (O : Oracle) (fen : Nat → Faults) (frep : Nat → Bool)
    (acc : SweepResult) (j : JobRecord) : SweepResult :=
  let r := enrich_job O (fen j.id) acc.db j.id
  if j.status == "processing" then
    if frep j.id then { db := r.1, success := acc.success, failed := acc.failed + 1 }
    else { db := update_job r.1 j.id statusActive, success := acc.success + 1, failed := acc.failed }
  else { db := r.1, success := acc.success + 1, failed := acc.failed }

/-- `_reenrich_unenriched_jobs`: snapshot the jobs table, keep the rows
missing any enrichment data, and process them in order.  The batching
(3 at a time with a pause) only sleeps between batches and does not
touch state, so the sweep is the plain left fold over the candidate
list. -/
def reenrich_unenriched_jobs (O : Oracle) (fen : Nat → Faults) (frep : Nat → Bool)
    (db : DB) : SweepResult :=
  (db.jobs.filter needsEnrichment).foldl (sweepStep O fen frep)
    { db := db, success := 0, failed := 0 }

/-- Modelled from the spec: the Postgres RPC `acquire_cron_lock` called
by `_acquire_cron_lock` lives in a migration SQL file that is not part
of the repository sources; spec 4.1 specifies an atomic conditional
write on the lock row: create it if absent, else update it only if its
current expiry has passed (locked_until < now), setting the new expiry
to now plus the TTL.  The lock state is `none` when the row is absent
and `some locked_until` otherwise. -/
def acquire_cron_lock (now ttl : Nat) : Option Nat → Bool × Option Nat
  | none => (true, some (now + ttl))
  | some u => if u < now then (true, some (now + ttl)) else (false, some u)

/-- `_acquire_cron_lock`: call the RPC; on any exception (lock table
missing) return true, proceeding without the lock (fail open). -/
def acquire_cron_lock_failopen (rpcFails : Bool) (now ttl : Nat)
    (st : Option Nat) : Bool × Option Nat :=
  if rpcFails then (true, st) else acquire_cron_lock now ttl st

/-- N concurrent acquire calls on the same name: the RPC executes
atomically, so any interleaving is a serialisation; this runs the N
calls in sequence at one instant, returning the list of results and
the final lock state. -/
def acquireRun (now ttl : Nat) : Option Nat → Nat → List Bool × Option Nat
  | st, 0 => ([], st)
  | st, n + 1 =>
    let r := acquire_cron_lock now ttl st
    let rest := acquireRun now ttl r.2 n
    (r.1 :: rest.1, rest.2)

/-! Bookkeeping lemmas about the stats counters and the run log. -/

theorem applyOutcome_sum (s : Stats) (o : Outcome) :
    (applyOutcome s o).new + (applyOutcome s o).skipped + (applyOutcome s o).errors
      = s.new + s.skipped + s.errors + 1 := by
  cases o <;> simp [applyOutcome] <;> omega

theorem applyOutcome_fetched (s : Stats) (o : Outcome) :
    (applyOutcome s o).fetched = s.fetched := by
  cases o <;> rfl

theorem ingestLoop_sum (H : String → String) (O : Oracle)
    (l : List (RawPosting × Faults)) :
    ∀ st : LoopState,
      (ingestLoop H O l st).stats.new + (ingestLoop H O l st).stats.skipped
          + (ingestLoop H O l st).stats.errors
        = st.stats.new + st.stats.skipped + st.stats.errors + l.length := by
  induction l with
  | nil => intro st; simp [ingestLoop]
  | cons pf l ih =>
    intro st
    have h1 : ingestLoop H O (pf :: l) st = ingestLoop H O l (ingestStep H O st pf) := rfl
    have h2 : (ingestStep H O st pf).stats
        = applyOutcome st.stats (processPosting H O st.db pf.1 pf.2).2.1 := rfl
    rw [h1, ih, h2, applyOutcome_sum]
    simp
    omega

theorem ingestLoop_fetched (H : String → String) (O : Oracle)
    (l : List (RawPosting × Faults)) :
    ∀ st : LoopState, (ingestLoop H O l st).stats.fetched = st.stats.fetched := by
  induction l with
  | nil => intro st; simp [ingestLoop]
  | cons pf l ih =>
    intro st
    have h1 : ingestLoop H O (pf :: l) st = ingestLoop H O l (ingestStep H O st pf) := rfl
    have h2 : (ingestStep H O st pf).stats
        = applyOutcome st.stats (processPosting H O st.db pf.1 pf.2).2.1 := rfl
    rw [h1, ih, h2, applyOutcome_fetched]

/-- Claim C1: in every run of `ingest_jobs` whose fetch succeeds with a
posting list P (whatever the oracle, the initial state and the fault
profile of each posting), the returned stats satisfy
new + skipped + errors = length P = fetched: each posting increments
exactly one of the three counters. -/
theorem C1_stats_partition (H : String → String) (O : Oracle)
    (source : String) (t0 t1 : Nat) (l : List (RawPosting × Faults)) (db : DB) :
    (ingest_jobs H O source t0 t1 (Except.ok l) db).2.stats.new
        + (ingest_jobs H O source t0 t1 (Except.ok l) db).2.stats.skipped
        + (ingest_jobs H O source t0 t1 (Except.ok l) db).2.stats.errors = l.length
      ∧ (ingest_jobs H O source t0 t1 (Except.ok l) db).2.stats.fetched = l.length := by
  constructor
  · have h := ingestLoop_sum H O l
      { db := (insert_scraping_log db source t0).2, stats := { fetched := l.length }, eff := {} }
    simpa [ingest_jobs] using h
  · have h := ingestLoop_fetched H O l
      { db := (insert_scraping_log db source t0).2, stats := { fetched := l.length }, eff := {} }
    simpa [ingest_jobs] using h

theorem update_job_logs (db : DB) (i : Nat) (u : JobUpdate) :
    (update_job db i u).logs = db.logs := rfl

theorem create_job_logs (db : DB) (p : RawPosting) (h : Option String) :
    (create_job db p h).2.logs = db.logs := rfl

theorem enrich_job_logs (O : Oracle) (f : Faults) (db : DB) (i : Nat) :
    (enrich_job O f db i).1.logs = db.logs := by
  unfold enrich_job
  repeat' split
  all_goals simp [update_job]

theorem enrichPath_logs (O : Oracle) (f : Faults) (db : DB) (i : Nat) :
    (enrichPath O f db i).1.logs = db.logs := by
  unfold enrichPath
  split
  · exact enrich_job_logs O f db i
  · simp [update_job, enrich_job_logs]

theorem processPosting_logs (H : String → String) (O : Oracle) (db : DB)
    (p : RawPosting) (f : Faults) :
    (processPosting H O db p f).1.logs = db.logs := by
  by_cases hd : (p.description_raw == "") = true
  · cases hfe : find_job_by_external_id db p.company_name p.external_id with
    | none =>
      simp [processPosting, hfe, hd, apply_ite (fun x : DB × Outcome × Eff => x.1.logs),
        enrichPath_logs, create_job_logs]
    | some j =>
      simp [processPosting, hfe, hd, apply_ite (fun x : DB × Outcome × Eff => x.1.logs)]
  · cases hfe : find_job_by_external_id db p.company_name p.external_id with
    | some j =>
      simp [processPosting, hfe, hd, apply_ite (fun x : DB × Outcome × Eff => x.1.logs)]
    | none =>
      by_cases hh : H p.description_raw = ""
      · simp [processPosting, hfe, hd, hh, apply_ite (fun x : DB × Outcome × Eff => x.1.logs),
          enrichPath_logs, create_job_logs]
      · cases hfd : find_job_by_description_hash
            (create_job db p (some (H p.description_raw))).2 (H p.description_raw) with
        | some donor =>
          simp [processPosting, hfe, hd, hh, hfd,
            apply_ite (fun x : DB × Outcome × Eff => x.1.logs),
            update_job_logs, create_job_logs, enrichPath_logs]
        | none =>
          simp [processPosting, hfe, hd, hh, hfd,
            apply_ite (fun x : DB × Outcome × Eff => x.1.logs),
            enrichPath_logs, create_job_logs]

theorem ingestLoop_logs (H : String → String) (O : Oracle)
    (l : List (RawPosting × Faults)) :
    ∀ st : LoopState, (ingestLoop H O l st).db.logs = st.db.logs := by
  induction l with
  | nil => intro st; simp [ingestLoop]
  | cons pf l ih =>
    intro st
    have h1 : ingestLoop H O (pf :: l) st = ingestLoop H O l (ingestStep H O st pf) := rfl
    have h2 : (ingestStep H O st pf).db = (processPosting H O st.db pf.1 pf.2).1 := rfl
    rw [h1, ih, h2, processPosting_logs]

/-- Looking up the freshly inserted log row after a partial update of
it, when no older row shares its id. -/
theorem find_log_fresh (ls : List ScrapingLog) (lg0 : ScrapingLog) (u : LogUpdate)
    (i : Nat) (hi : lg0.id = i) (h : ∀ lg ∈ ls, lg.id ≠ i) :
    ((ls ++ [lg0]).map (fun lg => if lg.id == i then applyLogUpdate lg u else lg)).find?
        (fun lg => lg.id == i) = some (applyLogUpdate lg0 u) := by
  induction ls with
  | nil => simp [hi, applyLogUpdate, List.find?]
  | cons a ls ih =>
    have ha : a.id ≠ i := h a (by simp)
    have hrest : ∀ lg ∈ ls, lg.id ≠ i := fun lg hm => h lg (by simp [hm])
    simp only [List.cons_append, List.map_cons]
    rw [if_neg (by simp [ha])]
    rw [List.find?_cons_of_neg _ (by simp [ha])]
    exact ih hrest


theorem status_formula (e n : Nat) :
    (if e > 0 ∧ n > 0 then "partial" else if e > 0 ∧ n = 0 then "failed" else "success")
      = (if e > 0 ∧ n = 0 then "failed"
         else if e > 0 ∧ n > 0 then "partial" else "success") := by
  by_cases he : e > 0 <;> by_cases hn : n = 0 <;>
    simp [he, hn, Nat.pos_iff_ne_zero]

theorem ingest_ok_log (H : String → String) (O : Oracle) (source : String)
    (t0 t1 : Nat) (l : List (RawPosting × Faults)) (db : DB)
    (hwf : ∀ lg ∈ db.logs, lg.id ≠ db.nextLogId) :
    get_scraping_log (ingest_jobs H O source t0 t1 (Except.ok l) db).1 db.nextLogId
      = some { id := db.nextLogId, source_name := source
               status :=
                 (if (ingest_jobs H O source t0 t1 (Except.ok l) db).2.stats.errors > 0
                     ∧ (ingest_jobs H O source t0 t1 (Except.ok l) db).2.stats.new > 0
                  then "partial"
                  else if (ingest_jobs H O source t0 t1 (Except.ok l) db).2.stats.errors > 0
                     ∧ (ingest_jobs H O source t0 t1 (Except.ok l) db).2.stats.new = 0
                  then "failed" else "success")
               started_at := t0
               jobs_found := some (ingest_jobs H O source t0 t1 (Except.ok l) db).2.stats.fetched
               jobs_new := some (ingest_jobs H O source t0 t1 (Except.ok l) db).2.stats.new
               jobs_skipped := some (ingest_jobs H O source t0 t1 (Except.ok l) db).2.stats.skipped
               error_count := some (ingest_jobs H O source t0 t1 (Except.ok l) db).2.stats.errors
               finished_at := some t1
               error_message := none
               traceback := none } := by
  have hlid : (insert_scraping_log db source t0).1 = db.nextLogId := rfl
  have hlogs : (ingestLoop H O l
      { db := (insert_scraping_log db source t0).2
        stats := { fetched := l.length }, eff := {} }).db.logs
      = db.logs ++ [{ id := db.nextLogId, source_name := source
                      status := "running", started_at := t0 }] :=
    (ingestLoop_logs H O l _).trans rfl
  simp only [ingest_jobs, get_scraping_log, update_scraping_log]
  rw [hlid, hlogs]
  exact find_log_fresh _ _ _ _ rfl hwf

/-- Claim C4: for every completed run of `ingest_jobs`, the run log
record is finalized with terminal status derived from the counters:
failed if errors > 0 and new = 0; partial if errors > 0 and new > 0;
success otherwise (in particular success whenever errors = 0); the
aggregated counts and the finish timestamp are written with it. -/
theorem C4_runlog_finalized (H : String → String) (O : Oracle)
    (source : String) (t0 t1 : Nat) (l : List (RawPosting × Faults)) (db : DB)
    (r : DB × IngestResult)
    (hr : r = ingest_jobs H O source t0 t1 (Except.ok l) db)
    (hwf : ∀ lg ∈ db.logs, lg.id ≠ db.nextLogId) :
    ∃ lg, get_scraping_log r.1 db.nextLogId = some lg
      ∧ lg.status = (if r.2.stats.errors > 0 ∧ r.2.stats.new = 0 then "failed"
          else if r.2.stats.errors > 0 ∧ r.2.stats.new > 0 then "partial"
          else "success")
      ∧ lg.jobs_found = some r.2.stats.fetched
      ∧ lg.jobs_new = some r.2.stats.new
      ∧ lg.jobs_skipped = some r.2.stats.skipped
      ∧ lg.error_count = some r.2.stats.errors
      ∧ lg.finished_at = some t1
      ∧ lg.started_at = t0
      ∧ lg.source_name = source := by
  subst hr
  refine ⟨_, ingest_ok_log H O source t0 t1 l db hwf, ?_, rfl, rfl, rfl, rfl, rfl, rfl, rfl⟩
  exact status_formula _ _

/-- Claim C6: when the fetch call raises, the run log record is updated
to status failed with the error message, the traceback and a finish
timestamp; `ingest_jobs` returns a stats object with all counters zero
plus the error instead of raising; no posting is processed (zero
capability calls) and no job record is created or modified. -/
theorem C6_fetch_failure (H : String → String) (O : Oracle) (source : String)
    (t0 t1 : Nat) (e : FetchFail) (db : DB) (r : DB × IngestResult)
    (hr : r = ingest_jobs H O source t0 t1 (Except.error e) db)
    (hwf : ∀ lg ∈ db.logs, lg.id ≠ db.nextLogId) :
    r.2.stats = {} ∧ r.2.error = some e.msg ∧ r.2.eff = {}
      ∧ r.1.jobs = db.jobs ∧ r.1.nextId = db.nextId
      ∧ get_scraping_log r.1 db.nextLogId
          = some { id := db.nextLogId, source_name := source, status := "failed"
                   started_at := t0, finished_at := some t1
                   error_message := some e.msg, traceback := some e.tb } := by
  subst hr
  refine ⟨rfl, rfl, rfl, rfl, rfl, ?_⟩
  have hlid : (insert_scraping_log db source t0).1 = db.nextLogId := rfl
  have hins : (insert_scraping_log db source t0).2.logs
      = db.logs ++ [{ id := db.nextLogId, source_name := source
                      status := "running", started_at := t0 }] := rfl
  simp only [ingest_jobs, get_scraping_log, update_scraping_log]
  rw [hlid, hins]
  exact find_log_fresh _ _ _ _ rfl hwf

/-- Claim C5: `enrich_job` never raises to its caller: an exception
from the record fetch, the generation capability, the embedding
capability or the persistence write is caught inside and leaves the
state unchanged (the single write is all or nothing); and when no
record with the given id exists, it returns without performing any
capability call or any write (silent no-op). -/
theorem C5_enrich_never_raises (O : Oracle) (f : Faults) (db : DB) (job_id : Nat) :
    ((f.getJob || f.gen || f.emb || f.updEnrich) = true →
        (enrich_job O f db job_id).1 = db)
      ∧ (f.getJob = false → get_job db job_id = none →
        enrich_job O f db job_id = (db, {})) := by
  constructor
  · intro hf
    by_cases h1 : f.getJob = true
    · simp [enrich_job, h1]
    · cases hj : get_job db job_id with
      | none => simp [enrich_job, h1, hj]
      | some job =>
        by_cases h2 : f.gen = true
        · simp [enrich_job, h1, hj, h2]
        · by_cases h3 : f.emb = true
          · simp [enrich_job, h1, hj, h2, h3]
          · by_cases h4 : f.updEnrich = true
            · simp [enrich_job, h1, hj, h2, h3, h4]
            · exfalso
              simp [h1, h2, h3, h4] at hf
  · intro hg hn
    simp [enrich_job, hg, hn]

/-- Claim C10: `enrich_job` never writes the status column (nor any
identity or description column): a successful enrichment updates only
guide, questions, skills, embedding and salary, so a record in status
processing stays at processing after `enrich_job` alone succeeds. -/
theorem C10_enrich_preserves_status (O : Oracle) (f : Faults) (db : DB) (job_id : Nat) :
    (enrich_job O f db job_id).1.jobs.map
        (fun j => (j.id, j.status, j.company_name, j.external_id, j.title,
                   j.provider_id, j.description_raw, j.description_hash, j.external_apply_url))
      = db.jobs.map
        (fun j => (j.id, j.status, j.company_name, j.external_id, j.title,
                   j.provider_id, j.description_raw, j.description_hash, j.external_apply_url)) := by
  unfold enrich_job
  repeat' split
  all_goals try rfl
  all_goals
    simp only [update_job, List.map_map]
    congr 1
    funext j
    by_cases h : j.id = job_id <;> simp [h, applyJobUpdate]

theorem acquireRun_held (now ttl u : Nat) (h : ¬ u < now) :
    ∀ n, acquireRun now ttl (some u) n = (List.replicate n false, some u) := by
  intro n
  induction n with
  | zero => rfl
  | succ m ih => simp [acquireRun, acquire_cron_lock, h, ih, List.replicate_succ]

/-- Claim C3: the acquire RPC executes atomically, so N concurrent
acquire calls on one name serialize; starting from an absent or
expired lock, exactly one of the N calls returns true and the other
N-1 return false (the winner holds the lock, so the losers see it held
and unexpired); the lock is then held until now + ttl, and once that
expiry has elapsed a subsequent acquire returns true again. -/
theorem C3_lock_mutual_exclusion (now ttl : Nat) (st : Option Nat) (n : Nat)
    (hn : 1 ≤ n) (hfree : st = none ∨ ∃ u, st = some u ∧ u < now) :
    (acquireRun now ttl st n).1.count true = 1
      ∧ (acquireRun now ttl st n).1.length = n
      ∧ (acquireRun now ttl st n).2 = some (now + ttl)
      ∧ ∀ now2, now + ttl < now2 →
          (acquire_cron_lock now2 ttl (acquireRun now ttl st n).2).1 = true := by
  obtain ⟨m, rfl⟩ : ∃ m, n = m + 1 := ⟨n - 1, by omega⟩
  have hheld : ¬ now + ttl < now := by omega
  have hrun : acquireRun now ttl st (m + 1)
      = (true :: List.replicate m false, some (now + ttl)) := by
    rcases hfree with h | ⟨u, hu, hlt⟩
    · subst h
      simp [acquireRun, acquire_cron_lock, acquireRun_held now ttl (now + ttl) hheld m]
    · subst hu
      simp [acquireRun, acquire_cron_lock, hlt,
        acquireRun_held now ttl (now + ttl) hheld m]
  rw [hrun]
  refine ⟨?_, ?_, rfl, ?_⟩
  · simp [List.count_cons, List.count_replicate]
  · simp
  · intro now2 h2
    simp [acquire_cron_lock, h2]

/-- A concrete digest function for witnesses (nonempty output). -/
def H0 : String → String := fun s => String.append "#" s

/-- A concrete capability oracle for witnesses. -/
def O0 : Oracle :=
  { gen := fun d _ _ _ =>
      { resume_guide := [d]
        prep_questions := [{ question := "q", answer_strategy := "a" }]
        extracted_skills := ["s"]
        estimated_salary_range := "r" }
    emb := fun d => [Int.ofNat d.length] }

/-- An empty initial state for witnesses. -/
def db0 : DB := { jobs := [], nextId := 0, logs := [], nextLogId := 0 }

theorem C3_lock_mutual_exclusion_witness :
    1 ≤ 3
      ∧ ((acquireRun 10 5 none 3).1.count true = 1
        ∧ (acquireRun 10 5 none 3).1.length = 3
        ∧ (acquireRun 10 5 none 3).2 = some (10 + 5)
        ∧ ∀ now2, 10 + 5 < now2 →
            (acquire_cron_lock now2 5 (acquireRun 10 5 none 3).2).1 = true) :=
  ⟨by decide, C3_lock_mutual_exclusion 10 5 none 3 (by decide) (Or.inl rfl)⟩

theorem C4_runlog_finalized_witness :
    (∀ lg ∈ db0.logs, lg.id ≠ db0.nextLogId)
      ∧ (∃ lg, get_scraping_log
            (ingest_jobs H0 O0 "pwc" 0 1 (Except.ok []) db0).1 db0.nextLogId = some lg
          ∧ lg.status =
              (if (ingest_jobs H0 O0 "pwc" 0 1 (Except.ok []) db0).2.stats.errors > 0
                  ∧ (ingest_jobs H0 O0 "pwc" 0 1 (Except.ok []) db0).2.stats.new = 0
               then "failed"
               else if (ingest_jobs H0 O0 "pwc" 0 1 (Except.ok []) db0).2.stats.errors > 0
                  ∧ (ingest_jobs H0 O0 "pwc" 0 1 (Except.ok []) db0).2.stats.new > 0
               then "partial"
               else "success")
          ∧ lg.jobs_found = some (ingest_jobs H0 O0 "pwc" 0 1 (Except.ok []) db0).2.stats.fetched
          ∧ lg.jobs_new = some (ingest_jobs H0 O0 "pwc" 0 1 (Except.ok []) db0).2.stats.new
          ∧ lg.jobs_skipped = some (ingest_jobs H0 O0 "pwc" 0 1 (Except.ok []) db0).2.stats.skipped
          ∧ lg.error_count = some (ingest_jobs H0 O0 "pwc" 0 1 (Except.ok []) db0).2.stats.errors
          ∧ lg.finished_at = some 1
          ∧ lg.started_at = 0
          ∧ lg.source_name = "pwc") :=
  ⟨by simp [db0],
   C4_runlog_finalized H0 O0 "pwc" 0 1 [] db0 _ rfl (by simp [db0])⟩

theorem C5_enrich_never_raises_witness :
    (({ gen := true : Faults }.getJob || { gen := true : Faults }.gen
        || { gen := true : Faults }.emb || { gen := true : Faults }.updEnrich) = true →
      (enrich_job O0 { gen := true } db0 7).1 = db0)
      ∧ (noFaults.getJob = false → get_job db0 7 = none →
          enrich_job O0 noFaults db0 7 = (db0, {}))
      ∧ (enrich_job O0 { gen := true } db0 7).1 = db0
      ∧ enrich_job O0 noFaults db0 7 = (db0, {}) :=
  ⟨(C5_enrich_never_raises O0 { gen := true } db0 7).1,
   (C5_enrich_never_raises O0 noFaults db0 7).2,
   (C5_enrich_never_raises O0 { gen := true } db0 7).1 (by decide),
   (C5_enrich_never_raises O0 noFaults db0 7).2 (by decide) (by decide)⟩

theorem C6_fetch_failure_witness :
    (∀ lg ∈ db0.logs, lg.id ≠ db0.nextLogId)
      ∧ ((ingest_jobs H0 O0 "pwc" 0 1
            (Except.error { msg := "boom", tb := "tb" }) db0).2.stats = {}
        ∧ (ingest_jobs H0 O0 "pwc" 0 1
            (Except.error { msg := "boom", tb := "tb" }) db0).2.error = some "boom"
        ∧ (ingest_jobs H0 O0 "pwc" 0 1
            (Except.error { msg := "boom", tb := "tb" }) db0).2.eff = {}
        ∧ (ingest_jobs H0 O0 "pwc" 0 1
            (Except.error { msg := "boom", tb := "tb" }) db0).1.jobs = db0.jobs
        ∧ (ingest_jobs H0 O0 "pwc" 0 1
            (Except.error { msg := "boom", tb := "tb" }) db0).1.nextId = db0.nextId
        ∧ get_scraping_log (ingest_jobs H0 O0 "pwc" 0 1
              (Except.error { msg := "boom", tb := "tb" }) db0).1 db0.nextLogId
            = some { id := db0.nextLogId, source_name := "pwc", status := "failed"
                     started_at := 0, finished_at := some 1
                     error_message := some "boom", traceback := some "tb" }) :=
  ⟨by simp [db0],
   C6_fetch_failure H0 O0 "pwc" 0 1 { msg := "boom", tb := "tb" } db0 _ rfl (by simp [db0])⟩

theorem applyJobUpdate_id (j : JobRecord) (u : JobUpdate) :
    (applyJobUpdate j u).id = j.id := rfl

/-- Looking up a row by id after a partial update of that id. -/
theorem find_map_update (ls : List JobRecord) (i : Nat) (u : JobUpdate) :
    (ls.map (fun j => if j.id == i then applyJobUpdate j u else j)).find?
        (fun j => j.id == i)
      = (ls.find? (fun j => j.id == i)).map (fun j => applyJobUpdate j u) := by
  induction ls with
  | nil => rfl
  | cons a ls ih =>
    by_cases h : a.id = i
    · simp [List.find?_cons, h, applyJobUpdate_id]
    · simp only [List.map_cons]
      rw [if_neg (by simp [h])]
      rw [List.find?_cons_of_neg _ (by simp [h]), List.find?_cons_of_neg _ (by simp [h])]
      exact ih

theorem get_job_update_self (db : DB) (i : Nat) (u : JobUpdate) :
    get_job (update_job db i u) i
      = (get_job db i).map (fun j => applyJobUpdate j u) := by
  unfold get_job update_job
  exact find_map_update db.jobs i u

/-- Looking up a freshly appended row whose id no older row shares. -/
theorem find_append_fresh (ls : List JobRecord) (j0 : JobRecord) (i : Nat)
    (hi : j0.id = i) (h : ∀ j ∈ ls, j.id ≠ i) :
    (ls ++ [j0]).find? (fun j => j.id == i) = some j0 := by
  induction ls with
  | nil => simp [List.find?, hi]
  | cons a ls ih =>
    have ha : a.id ≠ i := h a (by simp)
    have hrest : ∀ j ∈ ls, j.id ≠ i := fun j hm => h j (by simp [hm])
    simp only [List.cons_append]
    rw [List.find?_cons_of_neg _ (by simp [ha])]
    exact ih hrest

theorem get_job_create (db : DB) (p : RawPosting) (dh : Option String)
    (hwfj : ∀ j ∈ db.jobs, j.id ≠ db.nextId) :
    get_job (create_job db p dh).2 db.nextId = some (create_job db p dh).1 := by
  unfold get_job create_job
  exact find_append_fresh db.jobs _ db.nextId rfl hwfj

/-- Claim C9: on a hash-dedup hit the cloning update writes only the
resume guide, prep questions, embedding and status from the donor; the
salary_range of the new record stays null and its skills_required stay
the posting skills, even though a successful full enrichment would
have populated salary_range. -/
theorem C9_dedup_clone_frame (H : String → String) (O : Oracle) (db : DB)
    (p : RawPosting) (donor : JobRecord)
    (hwfj : ∀ j ∈ db.jobs, j.id ≠ db.nextId)
    (hfe : find_job_by_external_id db p.company_name p.external_id = none)
    (hd : p.description_raw ≠ "")
    (hh : H p.description_raw ≠ "")
    (hdonor : find_job_by_description_hash
        (create_job db p (some (H p.description_raw))).2 (H p.description_raw)
      = some donor) :
    (∃ j, get_job (processPosting H O db p noFaults).1 db.nextId = some j
      ∧ j.salary_range = none
      ∧ j.skills_required = p.skills_required
      ∧ j.resume_guide_generated = donor.resume_guide_generated
      ∧ j.prep_guide_generated = donor.prep_guide_generated
      ∧ j.embedding = donor.embedding
      ∧ j.status = "active")
      ∧ (processPosting H O db p noFaults).2.2 = ({} : Eff)
      ∧ ∀ (db2 : DB) (i : Nat) (j2 : JobRecord), get_job db2 i = some j2 →
          ∃ j3, get_job (enrich_job O noFaults db2 i).1 i = some j3
            ∧ j3.salary_range = some (O.gen j2.description_raw j2.skills_required
                j2.title j2.company_name).estimated_salary_range := by
  have hbeq : (p.description_raw == "") = false := by simp [hd]
  have hbh : (H p.description_raw == "") = false := by simp [hh]
  have hred : (processPosting H O db p noFaults).1
      = update_job (create_job db p (some (H p.description_raw))).2
          (create_job db p (some (H p.description_raw))).1.id (cloneUpdate donor) := by
    simp [processPosting, hfe, hbeq, hbh, hdonor, noFaults]
  have hid : (create_job db p (some (H p.description_raw))).1.id = db.nextId := rfl
  refine ⟨?_, ?_, ?_⟩
  · rw [hred, hid, get_job_update_self,
      get_job_create db p (some (H p.description_raw)) hwfj]
    exact ⟨_, rfl, rfl, rfl, rfl, rfl, rfl, rfl⟩
  · simp [processPosting, hfe, hbeq, hbh, hdonor, noFaults]
  · intro db2 i j2 hj2
    have : (enrich_job O noFaults db2 i).1
        = update_job db2 i
            { resume_guide_generated := some (some (O.gen j2.description_raw
                j2.skills_required j2.title j2.company_name).resume_guide)
              prep_guide_generated := some (some (O.gen j2.description_raw
                j2.skills_required j2.title j2.company_name).prep_questions)
              skills_required := some (if j2.skills_required.isEmpty
                then (O.gen j2.description_raw j2.skills_required j2.title
                  j2.company_name).extracted_skills
                else j2.skills_required)
              embedding := some (some (O.emb j2.description_raw))
              salary_range := some (some (O.gen j2.description_raw
                j2.skills_required j2.title j2.company_name).estimated_salary_range) } := by
      simp [enrich_job, noFaults, hj2]
    rw [this, get_job_update_self, hj2]
    exact ⟨_, rfl, rfl⟩

/-- An already-enriched donor row for witnesses. -/
def donor0 : JobRecord :=
  { id := 0, provider_id := "x", title := "t", description_raw := "d"
    skills_required := [], external_id := "e0", external_apply_url := none
    company_name := "c0", description_hash := some (H0 "d"), status := "active"
    resume_guide_generated := some ["g"]
    prep_guide_generated := some [{ question := "q", answer_strategy := "a" }]
    embedding := some [1], salary_range := some "s" }

/-- A state holding only the donor row. -/
def db1 : DB := { jobs := [donor0], nextId := 1, logs := [], nextLogId := 0 }

/-- A posting with the donor description but a different identity key. -/
def p0 : RawPosting :=
  { external_id := "e1", title := "t", description_raw := "d"
    company_name := "c1", external_apply_url := none, skills_required := ["k"] }

theorem C9_dedup_clone_frame_witness :
    (∀ j ∈ db1.jobs, j.id ≠ db1.nextId)
      ∧ find_job_by_external_id db1 p0.company_name p0.external_id = none
      ∧ p0.description_raw ≠ ""
      ∧ H0 p0.description_raw ≠ ""
      ∧ find_job_by_description_hash
          (create_job db1 p0 (some (H0 p0.description_raw))).2 (H0 p0.description_raw)
          = some donor0
      ∧ ((∃ j, get_job (processPosting H0 O0 db1 p0 noFaults).1 db1.nextId = some j
            ∧ j.salary_range = none
            ∧ j.skills_required = p0.skills_required
            ∧ j.resume_guide_generated = donor0.resume_guide_generated
            ∧ j.prep_guide_generated = donor0.prep_guide_generated
            ∧ j.embedding = donor0.embedding
            ∧ j.status = "active")
          ∧ (processPosting H0 O0 db1 p0 noFaults).2.2 = ({} : Eff)
          ∧ ∀ (db2 : DB) (i : Nat) (j2 : JobRecord), get_job db2 i = some j2 →
              ∃ j3, get_job (enrich_job O0 noFaults db2 i).1 i = some j3
                ∧ j3.salary_range = some (O0.gen j2.description_raw j2.skills_required
                    j2.title j2.company_name).estimated_salary_range) :=
  ⟨by decide, by decide, by decide, by decide, by decide,
   C9_dedup_clone_frame H0 O0 db1 p0 donor0
     (by decide) (by decide) (by decide) (by decide) (by decide)⟩

/-- The one-call update dict `enrich_job` persists for a record whose
columns were just inserted from posting `p`. -/
def enrichUpdateFor (O : Oracle) (p : RawPosting) : JobUpdate :=
  { resume_guide_generated := some (some (O.gen p.description_raw p.skills_required
      p.title p.company_name).resume_guide)
    prep_guide_generated := some (some (O.gen p.description_raw p.skills_required
      p.title p.company_name).prep_questions)
    skills_required := some (if p.skills_required.isEmpty
      then (O.gen p.description_raw p.skills_required p.title p.company_name).extracted_skills
      else p.skills_required)
    embedding := some (some (O.emb p.description_raw))
    salary_range := some (some (O.gen p.description_raw p.skills_required
      p.title p.company_name).estimated_salary_range) }

theorem processPosting_clone_eq (H : String → String) (O : Oracle) (db : DB)
    (p : RawPosting) (donor : JobRecord)
    (hfe : find_job_by_external_id db p.company_name p.external_id = none)
    (hd : (p.description_raw == "") = false)
    (hh : (H p.description_raw == "") = false)
    (hdonor : find_job_by_description_hash
        (create_job db p (some (H p.description_raw))).2 (H p.description_raw)
      = some donor) :
    processPosting H O db p noFaults
      = (update_job (create_job db p (some (H p.description_raw))).2
          (create_job db p (some (H p.description_raw))).1.id (cloneUpdate donor),
         Outcome.newDedup, {}) := by
  simp [processPosting, hfe, hd, hh, hdonor, noFaults]

theorem processPosting_enrich_eq (H : String → String) (O : Oracle) (db : DB)
    (p : RawPosting)
    (hfe : find_job_by_external_id db p.company_name p.external_id = none)
    (hd : (p.description_raw == "") = false)
    (hh : (H p.description_raw == "") = false)
    (hnohash : find_job_by_description_hash
        (create_job db p (some (H p.description_raw))).2 (H p.description_raw) = none)
    (hjob : get_job (create_job db p (some (H p.description_raw))).2
        (create_job db p (some (H p.description_raw))).1.id
      = some (create_job db p (some (H p.description_raw))).1) :
    processPosting H O db p noFaults
      = (update_job (update_job (create_job db p (some (H p.description_raw))).2
            (create_job db p (some (H p.description_raw))).1.id (enrichUpdateFor O p))
          (create_job db p (some (H p.description_raw))).1.id statusActive,
         Outcome.newEnrich, { genCalls := 1, embCalls := 1 }) := by
  simp [processPosting, enrichPath, enrich_job, hfe, hd, hh, hnohash, hjob, noFaults]
  simp [create_job, enrichUpdateFor]

/-- Claim C2: two postings with byte-identical nonempty description
text and different identity keys, ingested into an empty store in one
run with no faults: the first is fully enriched, the second is a hash
dedup hit that clones the enrichment of the first, so the run makes
exactly one generation-capability call, counts one dedup hit among two
new records, and both records end with identical resume guide, prep
questions and (non-null) embedding, both active. -/
theorem C2_hash_dedup_one_generation_call (H : String → String) (O : Oracle)
    (source : String) (t0 t1 : Nat) (db : DB) (p1 p2 : RawPosting)
    (r : DB × IngestResult)
    (hr : r = ingest_jobs H O source t0 t1
        (Except.ok [(p1, noFaults), (p2, noFaults)]) db)
    (hempty : db.jobs = [])
    (hdesc : p1.description_raw = p2.description_raw)
    (hd : p1.description_raw ≠ "")
    (hh : H p1.description_raw ≠ "")
    (hkey : p1.company_name ≠ p2.company_name ∨ p1.external_id ≠ p2.external_id) :
    r.2.eff.genCalls = 1 ∧ r.2.eff.embCalls = 1
      ∧ r.2.stats.new = 2 ∧ r.2.stats.skipped = 0 ∧ r.2.stats.errors = 0
      ∧ r.2.stats.dedup_hits = 1
      ∧ ∃ j1 j2, get_job r.1 db.nextId = some j1
          ∧ get_job r.1 (db.nextId + 1) = some j2
          ∧ j2.resume_guide_generated = j1.resume_guide_generated
          ∧ j2.prep_guide_generated = j1.prep_guide_generated
          ∧ j2.embedding = j1.embedding
          ∧ j1.embedding ≠ none
          ∧ j1.status = "active" ∧ j2.status = "active" := by
  subst hr
  have hjobsA : (insert_scraping_log db source t0).2.jobs = [] := hempty
  have hfe1 : find_job_by_external_id (insert_scraping_log db source t0).2
      p1.company_name p1.external_id = none := by
    simp [find_job_by_external_id, hjobsA]
  have hd1 : (p1.description_raw == "") = false := by simp [hd]
  have hh1 : (H p1.description_raw == "") = false := by simp [hh]
  have hnohash1 : find_job_by_description_hash
      (create_job (insert_scraping_log db source t0).2 p1 (some (H p1.description_raw))).2
      (H p1.description_raw) = none := by
    simp [find_job_by_description_hash, create_job, hjobsA]
  have hjob1 : get_job
      (create_job (insert_scraping_log db source t0).2 p1 (some (H p1.description_raw))).2
      (create_job (insert_scraping_log db source t0).2 p1 (some (H p1.description_raw))).1.id
      = some (create_job (insert_scraping_log db source t0).2 p1
          (some (H p1.description_raw))).1 := by
    simp [get_job, create_job, hjobsA]
  have hstep1 := processPosting_enrich_eq H O (insert_scraping_log db source t0).2 p1
    hfe1 hd1 hh1 hnohash1 hjob1
  set g1 := O.gen p1.description_raw p1.skills_required p1.title p1.company_name with hg1
  set e1 : JobRecord :=
    { id := db.nextId, provider_id := INGESTION_PROVIDER_ID, title := p1.title
      description_raw := p1.description_raw
      skills_required :=
        if p1.skills_required.isEmpty then g1.extracted_skills else p1.skills_required
      external_id := p1.external_id, external_apply_url := p1.external_apply_url
      company_name := p1.company_name, description_hash := some (H p1.description_raw)
      status := "active", resume_guide_generated := some g1.resume_guide
      prep_guide_generated := some g1.prep_questions
      embedding := some (O.emb p1.description_raw)
      salary_range := some g1.estimated_salary_range } with he1
  set dbB := update_job (update_job
      (create_job (insert_scraping_log db source t0).2 p1 (some (H p1.description_raw))).2
      (create_job (insert_scraping_log db source t0).2 p1 (some (H p1.description_raw))).1.id
      (enrichUpdateFor O p1))
      (create_job (insert_scraping_log db source t0).2 p1 (some (H p1.description_raw))).1.id
      statusActive with hdbB
  have hjobsB : dbB.jobs = [e1] := by
    rw [hdbB]
    simp [update_job, create_job, applyJobUpdate, statusActive, enrichUpdateFor,
      insert_scraping_log, hjobsA, he1, hempty]
  have hnextB : dbB.nextId = db.nextId + 1 := by
    simp [hdbB, update_job, create_job, insert_scraping_log]
  have hfe2 : find_job_by_external_id dbB p2.company_name p2.external_id = none := by
    have hpred : (e1.company_name == p2.company_name
        && e1.external_id == p2.external_id) = false := by
      rcases hkey with h | h <;> simp [he1, h]
    simp [find_job_by_external_id, hjobsB, hpred]
  have hd2 : (p2.description_raw == "") = false := by rw [← hdesc]; exact hd1
  have hh2 : (H p2.description_raw == "") = false := by rw [← hdesc]; exact hh1
  have hdonor2 : find_job_by_description_hash
      (create_job dbB p2 (some (H p2.description_raw))).2 (H p2.description_raw)
      = some e1 := by
    simp [find_job_by_description_hash, create_job, hjobsB, he1, ← hdesc]
  have hstep2 := processPosting_clone_eq H O dbB p2 e1 hfe2 hd2 hh2 hdonor2
  set f2 : JobRecord :=
    { id := db.nextId + 1, provider_id := INGESTION_PROVIDER_ID, title := p2.title
      description_raw := p2.description_raw, skills_required := p2.skills_required
      external_id := p2.external_id, external_apply_url := p2.external_apply_url
      company_name := p2.company_name, description_hash := some (H p2.description_raw)
      status := "active", resume_guide_generated := some g1.resume_guide
      prep_guide_generated := some g1.prep_questions
      embedding := some (O.emb p1.description_raw)
      salary_range := none } with hf2
  set dbC := update_job (create_job dbB p2 (some (H p2.description_raw))).2
      (create_job dbB p2 (some (H p2.description_raw))).1.id (cloneUpdate e1) with hdbC
  have hjobsC : dbC.jobs = [e1, f2] := by
    rw [hdbC]
    simp only [update_job, create_job]
    rw [hjobsB]
    simp [applyJobUpdate, cloneUpdate, he1, hf2, hnextB, Nat.self_eq_add_right]
  have hloopval : ingestLoop H O [(p1, noFaults), (p2, noFaults)]
      { db := (insert_scraping_log db source t0).2, stats := { fetched := 2 }, eff := {} }
      = { db := dbC
          stats := { fetched := 2, new := 2, skipped := 0, errors := 0, dedup_hits := 1 }
          eff := { genCalls := 1, embCalls := 1 } } := by
    have h0 : ingestLoop H O [(p1, noFaults), (p2, noFaults)]
        { db := (insert_scraping_log db source t0).2, stats := { fetched := 2 }, eff := {} }
        = ingestStep H O (ingestStep H O
            { db := (insert_scraping_log db source t0).2, stats := { fetched := 2 }, eff := {} }
            (p1, noFaults)) (p2, noFaults) := rfl
    rw [h0]
    have h1 : ingestStep H O
        { db := (insert_scraping_log db source t0).2, stats := { fetched := 2 }, eff := {} }
        (p1, noFaults)
        = { db := dbB, stats := applyOutcome { fetched := 2 } Outcome.newEnrich
            eff := Eff.add {} { genCalls := 1, embCalls := 1 } } := by
      simp [ingestStep, hstep1, hdbB]
    rw [h1]
    have h2 : ingestStep H O
        { db := dbB, stats := applyOutcome { fetched := 2 } Outcome.newEnrich
          eff := Eff.add {} { genCalls := 1, embCalls := 1 } } (p2, noFaults)
        = { db := dbC
            stats := applyOutcome (applyOutcome { fetched := 2 } Outcome.newEnrich)
              Outcome.newDedup
            eff := Eff.add (Eff.add {} { genCalls := 1, embCalls := 1 }) {} } := by
      simp [ingestStep, hstep2, hdbC]
    rw [h2]
    simp [applyOutcome, Eff.add]
  have hres2 : (ingest_jobs H O source t0 t1
      (Except.ok [(p1, noFaults), (p2, noFaults)]) db).2
      = { stats := { fetched := 2, new := 2, skipped := 0, errors := 0, dedup_hits := 1 }
          error := none, eff := { genCalls := 1, embCalls := 1 } } := by
    have hx : (ingest_jobs H O source t0 t1
        (Except.ok [(p1, noFaults), (p2, noFaults)]) db).2
        = { stats := (ingestLoop H O [(p1, noFaults), (p2, noFaults)]
              { db := (insert_scraping_log db source t0).2, stats := { fetched := 2 }
                eff := {} }).stats
            error := none
            eff := (ingestLoop H O [(p1, noFaults), (p2, noFaults)]
              { db := (insert_scraping_log db source t0).2, stats := { fetched := 2 }
                eff := {} }).eff } := rfl
    rw [hx, hloopval]
  have hjobsR : (ingest_jobs H O source t0 t1
      (Except.ok [(p1, noFaults), (p2, noFaults)]) db).1.jobs = [e1, f2] := by
    have hx : (ingest_jobs H O source t0 t1
        (Except.ok [(p1, noFaults), (p2, noFaults)]) db).1.jobs
        = (ingestLoop H O [(p1, noFaults), (p2, noFaults)]
            { db := (insert_scraping_log db source t0).2, stats := { fetched := 2 }
              eff := {} }).db.jobs := rfl
    rw [hx, hloopval]
    exact hjobsC
  have hq1 : get_job (ingest_jobs H O source t0 t1
      (Except.ok [(p1, noFaults), (p2, noFaults)]) db).1 db.nextId = some e1 := by
    simp only [get_job]
    rw [hjobsR]
    rw [List.find?_cons_of_pos _ (by simp [he1])]
  have hq2 : get_job (ingest_jobs H O source t0 t1
      (Except.ok [(p1, noFaults), (p2, noFaults)]) db).1 (db.nextId + 1) = some f2 := by
    simp only [get_job]
    rw [hjobsR]
    rw [List.find?_cons_of_neg _ (by simp [he1, Nat.self_eq_add_right])]
    rw [List.find?_cons_of_pos _ (by simp [hf2])]
  refine ⟨by rw [hres2], by rw [hres2], by rw [hres2], by rw [hres2], by rw [hres2],
    by rw [hres2], e1, f2, hq1, hq2, by simp [he1, hf2], by simp [he1, hf2],
    by simp [he1, hf2], by simp [he1], by simp [he1], by simp [hf2]⟩

/-- First witness posting for the dedup scenario. -/
def pA : RawPosting :=
  { external_id := "e1", title := "t1", description_raw := "d"
    company_name := "c1", external_apply_url := none, skills_required := [] }

/-- Second witness posting: same description, different identity key. -/
def pB : RawPosting :=
  { external_id := "e2", title := "t2", description_raw := "d"
    company_name := "c2", external_apply_url := none, skills_required := [] }

theorem C2_hash_dedup_one_generation_call_witness :
    db0.jobs = [] ∧ pA.description_raw = pB.description_raw
      ∧ pA.description_raw ≠ "" ∧ H0 pA.description_raw ≠ ""
      ∧ (pA.company_name ≠ pB.company_name ∨ pA.external_id ≠ pB.external_id)
      ∧ ((ingest_jobs H0 O0 "pwc" 0 1
            (Except.ok [(pA, noFaults), (pB, noFaults)]) db0).2.eff.genCalls = 1
        ∧ (ingest_jobs H0 O0 "pwc" 0 1
            (Except.ok [(pA, noFaults), (pB, noFaults)]) db0).2.eff.embCalls = 1
        ∧ (ingest_jobs H0 O0 "pwc" 0 1
            (Except.ok [(pA, noFaults), (pB, noFaults)]) db0).2.stats.new = 2
        ∧ (ingest_jobs H0 O0 "pwc" 0 1
            (Except.ok [(pA, noFaults), (pB, noFaults)]) db0).2.stats.skipped = 0
        ∧ (ingest_jobs H0 O0 "pwc" 0 1
            (Except.ok [(pA, noFaults), (pB, noFaults)]) db0).2.stats.errors = 0
        ∧ (ingest_jobs H0 O0 "pwc" 0 1
            (Except.ok [(pA, noFaults), (pB, noFaults)]) db0).2.stats.dedup_hits = 1
        ∧ ∃ j1 j2, get_job (ingest_jobs H0 O0 "pwc" 0 1
              (Except.ok [(pA, noFaults), (pB, noFaults)]) db0).1 db0.nextId = some j1
            ∧ get_job (ingest_jobs H0 O0 "pwc" 0 1
                (Except.ok [(pA, noFaults), (pB, noFaults)]) db0).1 (db0.nextId + 1) = some j2
            ∧ j2.resume_guide_generated = j1.resume_guide_generated
            ∧ j2.prep_guide_generated = j1.prep_guide_generated
            ∧ j2.embedding = j1.embedding
            ∧ j1.embedding ≠ none
            ∧ j1.status = "active" ∧ j2.status = "active") :=
  ⟨by decide, by decide, by decide, by decide, Or.inl (by decide),
   C2_hash_dedup_one_generation_call H0 O0 "pwc" 0 1 db0 pA pB _ rfl
     (by decide) (by decide) (by decide) (by decide) (Or.inl (by decide))⟩

/-- A record with all three enrichment fields missing (falsy). -/
def allMissing (j : JobRecord) : Bool :=
  isFalsy j.resume_guide_generated && isFalsy j.prep_guide_generated && isFalsy j.embedding

/-- Unenriched row, status active, for the reconciliation scenario. -/
def jX1 : JobRecord :=
  { id := 0, provider_id := "x", title := "t", description_raw := "d"
    skills_required := [], external_id := "e0", external_apply_url := none
    company_name := "c", description_hash := none, status := "active"
    resume_guide_generated := none, prep_guide_generated := none
    embedding := none, salary_range := none }

/-- Unenriched row stuck at status processing. -/
def jX2 : JobRecord :=
  { jX1 with id := 1, external_id := "e1", status := "processing" }

def dbX : DB := { jobs := [jX1, jX2], nextId := 2, logs := [], nextLogId := 0 }

theorem sweepStep_partition (O : Oracle) (fen : Nat → Faults) (frep : Nat → Bool)
    (acc : SweepResult) (j : JobRecord) :
    (sweepStep O fen frep acc j).success + (sweepStep O fen frep acc j).failed
      = acc.success + acc.failed + 1 := by
  unfold sweepStep
  repeat' split
  all_goals simp
  all_goals omega

theorem sweep_partition (O : Oracle) (fen : Nat → Faults) (frep : Nat → Bool)
    (cands : List JobRecord) :
    ∀ acc : SweepResult,
      (cands.foldl (sweepStep O fen frep) acc).success
          + (cands.foldl (sweepStep O fen frep) acc).failed
        = acc.success + acc.failed + cands.length := by
  induction cands with
  | nil => intro acc; simp
  | cons j rest ih =>
    intro acc
    have h1 : (j :: rest).foldl (sweepStep O fen frep) acc
        = rest.foldl (sweepStep O fen frep) (sweepStep O fen frep acc j) := rfl
    rw [h1, ih, sweepStep_partition]
    simp
    omega

/-- The one-call update dict `enrich_job` persists for record `jj`. -/
def enrichUpdateOf (O : Oracle) (jj : JobRecord) : JobUpdate :=
  { resume_guide_generated := some (some (O.gen jj.description_raw jj.skills_required
      jj.title jj.company_name).resume_guide)
    prep_guide_generated := some (some (O.gen jj.description_raw jj.skills_required
      jj.title jj.company_name).prep_questions)
    skills_required := some (if jj.skills_required.isEmpty
      then (O.gen jj.description_raw jj.skills_required jj.title
        jj.company_name).extracted_skills
      else jj.skills_required)
    embedding := some (some (O.emb jj.description_raw))
    salary_range := some (some (O.gen jj.description_raw jj.skills_required
      jj.title jj.company_name).estimated_salary_range) }

theorem enrich_job_noFaults_eq (O : Oracle) (db : DB) (i : Nat) (jj : JobRecord)
    (hj : get_job db i = some jj) :
    enrich_job O noFaults db i
      = (update_job db i (enrichUpdateOf O jj), { genCalls := 1, embCalls := 1 }) := by
  simp [enrich_job, noFaults, hj, enrichUpdateOf]

theorem update_job_mem (db : DB) (k : Nat) (u : JobUpdate) (rec : JobRecord)
    (h : rec ∈ (update_job db k u).jobs) :
    (rec.id ≠ k ∧ rec ∈ db.jobs)
      ∨ (rec.id = k ∧ ∃ x ∈ db.jobs, x.id = k ∧ rec = applyJobUpdate x u) := by
  simp only [update_job, List.mem_map] at h
  obtain ⟨a, ha, hrec⟩ := h
  by_cases hid : a.id = k
  · right
    rw [if_pos (by simp [hid])] at hrec
    subst hrec
    exact ⟨by simp [applyJobUpdate_id, hid], a, ha, hid, rfl⟩
  · left
    rw [if_neg (by simp [hid])] at hrec
    subst hrec
    exact ⟨hid, ha⟩

theorem update_job_ids (db : DB) (k : Nat) (u : JobUpdate) :
    (update_job db k u).jobs.map (fun x => x.id) = db.jobs.map (fun x => x.id) := by
  simp only [update_job, List.map_map]
  congr 1
  funext j
  by_cases h : j.id = k <;> simp [h, applyJobUpdate_id]

theorem enrich_job_ids (O : Oracle) (f : Faults) (db : DB) (i : Nat) :
    (enrich_job O f db i).1.jobs.map (fun x => x.id)
      = db.jobs.map (fun x => x.id) := by
  unfold enrich_job
  repeat' split
  all_goals first
    | rfl
    | simp [update_job_ids]

theorem sweepStep_ids (O : Oracle) (fen : Nat → Faults) (frep : Nat → Bool)
    (acc : SweepResult) (j : JobRecord) :
    (sweepStep O fen frep acc j).db.jobs.map (fun x => x.id)
      = acc.db.jobs.map (fun x => x.id) := by
  unfold sweepStep
  repeat' split
  all_goals simp [update_job_ids, enrich_job_ids]

theorem exists_id_iff_mem_map (ls : List JobRecord) (i : Nat) :
    (∃ x ∈ ls, x.id = i) ↔ i ∈ ls.map (fun x => x.id) := by
  simp [List.mem_map]

theorem sweepStep_mem (O : Oracle) (fen : Nat → Faults) (frep : Nat → Bool)
    (acc : SweepResult) (j : JobRecord) (jj : JobRecord)
    (hjj : get_job acc.db j.id = some jj) (hfenj : fen j.id = noFaults) :
    ∀ rec ∈ (sweepStep O fen frep acc j).db.jobs,
      (rec.id ≠ j.id → rec ∈ acc.db.jobs)
      ∧ (rec.id = j.id → rec.embedding = some (O.emb jj.description_raw)) := by
  intro rec hrec
  unfold sweepStep at hrec
  rw [hfenj, enrich_job_noFaults_eq O acc.db j.id jj hjj] at hrec
  by_cases hst : (j.status == "processing") = true
  · rw [if_pos hst] at hrec
    by_cases hfr : frep j.id = true
    · rw [if_pos hfr] at hrec
      rcases update_job_mem acc.db j.id (enrichUpdateOf O jj) rec hrec with
        ⟨hne, hm⟩ | ⟨heq, x, hx, hxid, hre⟩
      · exact ⟨fun _ => hm, fun h => absurd h hne⟩
      · exact ⟨fun h => absurd heq h, fun _ => by rw [hre]; rfl⟩
    · rw [if_neg hfr] at hrec
      rcases update_job_mem _ j.id statusActive rec hrec with
        ⟨hne, hm⟩ | ⟨heq, y, hy, hyid, hre⟩
      · rcases update_job_mem acc.db j.id (enrichUpdateOf O jj) rec hm with
          ⟨_, hm2⟩ | ⟨heq2, _, _, _, _⟩
        · exact ⟨fun _ => hm2, fun h => absurd h hne⟩
        · exact absurd heq2 hne
      · rcases update_job_mem acc.db j.id (enrichUpdateOf O jj) y hy with
          ⟨hne2, _⟩ | ⟨_, x, hx, hxid, hye⟩
        · exact absurd hyid hne2
        · refine ⟨fun h => absurd heq h, fun _ => ?_⟩
          rw [hre, hye]
          rfl
  · rw [if_neg hst] at hrec
    rcases update_job_mem acc.db j.id (enrichUpdateOf O jj) rec hrec with
      ⟨hne, hm⟩ | ⟨heq, x, hx, hxid, hre⟩
    · exact ⟨fun _ => hm, fun h => absurd h hne⟩
    · exact ⟨fun h => absurd heq h, fun _ => by rw [hre]; rfl⟩

theorem sweep_no_missing (O : Oracle) (fen : Nat → Faults) (frep : Nat → Bool)
    (hemb : ∀ d, O.emb d ≠ []) :
    ∀ (cands : List JobRecord) (acc : SweepResult),
      (∀ c ∈ cands, fen c.id = noFaults) →
      (∀ c ∈ cands, ∃ x ∈ acc.db.jobs, x.id = c.id) →
      (∀ rec ∈ acc.db.jobs, allMissing rec = true → ∃ c ∈ cands, c.id = rec.id) →
      ∀ rec ∈ (cands.foldl (sweepStep O fen frep) acc).db.jobs,
        allMissing rec = false := by
  intro cands
  induction cands with
  | nil =>
    intro acc _ _ hmiss rec hrec
    cases h : allMissing rec with
    | false => rfl
    | true =>
      obtain ⟨c, hc, _⟩ := hmiss rec hrec h
      exact absurd hc (List.not_mem_nil c)
  | cons j rest ih =>
    intro acc hfen hid hmiss
    obtain ⟨x0, hx0, hx0id⟩ := hid j (by simp)
    have hsome : (get_job acc.db j.id).isSome := by
      rw [get_job, List.find?_isSome]
      exact ⟨x0, hx0, by simp [hx0id]⟩
    obtain ⟨jj, hjj⟩ := Option.isSome_iff_exists.mp hsome
    have hfenj : fen j.id = noFaults := hfen j (by simp)
    have hmem := sweepStep_mem O fen frep acc j jj hjj hfenj
    have h0 : (j :: rest).foldl (sweepStep O fen frep) acc
        = rest.foldl (sweepStep O fen frep) (sweepStep O fen frep acc j) := rfl
    rw [h0]
    apply ih
    · intro c hc
      exact hfen c (by simp [hc])
    · intro c hc
      rw [exists_id_iff_mem_map, sweepStep_ids, ← exists_id_iff_mem_map]
      exact hid c (by simp [hc])
    · intro rec hrec htrue
      rcases hmem rec hrec with ⟨hother, hown⟩
      by_cases hrid : rec.id = j.id
      · exfalso
        have hembr := hown hrid
        have hf : isFalsy rec.embedding = true := by
          simp [allMissing] at htrue
          exact htrue.2
        rw [hembr] at hf
        simp [isFalsy] at hf
        exact hemb _ hf
      · obtain ⟨c, hc, hcid⟩ := hmiss rec (hother hrid) htrue
        rcases List.mem_cons.mp hc with rfl | hcr
        · exact absurd hcid.symm hrid
        · exact ⟨c, hcr, hcid⟩

/-- Claim C7 (amended): the sweep always completes and reports
success + failed = number of candidates, and a per-record failure
increments the failure counter without halting the sweep; but a stuck
processing status is repaired to active whenever the enrichment call
returns, even when enrichment failed internally and was swallowed
(counted as success); accordingly, completeness holds for records
whose enrichment call has no internal fault: when no candidate has an
internal enrichment fault and embeddings are nonempty, no record
remains with all three enrichment fields missing after the sweep. -/
theorem C7_reconciliation_amended (O : Oracle) (fen : Nat → Faults) (frep : Nat → Bool)
    (db : DB) :
    ((reenrich_unenriched_jobs O fen frep db).success
        + (reenrich_unenriched_jobs O fen frep db).failed
      = (db.jobs.filter needsEnrichment).length)
      ∧ ((∀ c ∈ db.jobs, needsEnrichment c = true → fen c.id = noFaults) →
         (∀ d, O.emb d ≠ []) →
         ∀ rec ∈ (reenrich_unenriched_jobs O fen frep db).db.jobs,
           allMissing rec = false) := by
  constructor
  · have h := sweep_partition O fen frep (db.jobs.filter needsEnrichment)
      { db := db, success := 0, failed := 0 }
    simpa [reenrich_unenriched_jobs] using h
  · intro hfen hemb rec hrec
    have hrec2 : rec ∈ ((db.jobs.filter needsEnrichment).foldl (sweepStep O fen frep)
        { db := db, success := 0, failed := 0 }).db.jobs := hrec
    refine sweep_no_missing O fen frep hemb _ _ ?_ ?_ ?_ rec hrec2
    · intro c hc
      exact hfen c (List.mem_filter.mp hc).1 (List.mem_filter.mp hc).2
    · intro c hc
      exact ⟨c, (List.mem_filter.mp hc).1, rfl⟩
    · intro r hr ht
      refine ⟨r, List.mem_filter.mpr ⟨hr, ?_⟩, rfl⟩
      simp [allMissing] at ht
      simp [needsEnrichment, ht.1.1, ht.1.2, ht.2]

/-- Claim C7 as stated is false on the code: a candidate whose
generation call raises is swallowed inside enrich_job, the sweep
counts it as a success, and a stuck processing status is still
repaired to active; the record remains with all three enrichment
fields missing although no failure was counted. -/
theorem C7_reconciliation_counterexample :
    (reenrich_unenriched_jobs O0 (fun _ => { gen := true }) (fun _ => false) dbX).failed = 0
      ∧ (reenrich_unenriched_jobs O0 (fun _ => { gen := true })
          (fun _ => false) dbX).success = 2
      ∧ ∃ j ∈ (reenrich_unenriched_jobs O0 (fun _ => { gen := true })
            (fun _ => false) dbX).db.jobs,
          allMissing j = true ∧ j.status = "active" ∧ j.id = 1 := by
  decide

theorem C7_reconciliation_amended_witness :
    ((reenrich_unenriched_jobs O0 (fun _ => noFaults) (fun _ => false) dbX).success
        + (reenrich_unenriched_jobs O0 (fun _ => noFaults) (fun _ => false) dbX).failed
      = (dbX.jobs.filter needsEnrichment).length)
      ∧ ∀ rec ∈ (reenrich_unenriched_jobs O0 (fun _ => noFaults)
            (fun _ => false) dbX).db.jobs,
          allMissing rec = false :=
  ⟨(C7_reconciliation_amended O0 (fun _ => noFaults) (fun _ => false) dbX).1,
   (C7_reconciliation_amended O0 (fun _ => noFaults) (fun _ => false) dbX).2
     (fun _ _ _ => rfl) (fun d => by simp [O0])⟩

theorem find_isSome_map_update (ls : List JobRecord) (k : Nat) (u : JobUpdate)
    (q : JobRecord → Bool) (hq : ∀ j, q (applyJobUpdate j u) = q j) :
    ((ls.map (fun j => if j.id == k then applyJobUpdate j u else j)).find? q).isSome
      = (ls.find? q).isSome := by
  induction ls with
  | nil => rfl
  | cons a ls ih =>
    by_cases h : (a.id == k) = true
    · simp only [List.map_cons, if_pos h]
      by_cases hqa : q a = true
      · rw [List.find?_cons_of_pos _ (by rw [hq]; exact hqa),
          List.find?_cons_of_pos _ hqa]
        rfl
      · rw [List.find?_cons_of_neg _ (by rw [hq]; simpa using hqa),
          List.find?_cons_of_neg _ (by simpa using hqa)]
        exact ih
    · simp only [List.map_cons, if_neg h]
      by_cases hqa : q a = true
      · rw [List.find?_cons_of_pos _ hqa, List.find?_cons_of_pos _ hqa]
      · rw [List.find?_cons_of_neg _ (by simpa using hqa),
          List.find?_cons_of_neg _ (by simpa using hqa)]
        exact ih

theorem find_isSome_append (ls : List JobRecord) (c : JobRecord)
    (q : JobRecord → Bool) :
    ((ls ++ [c]).find? q).isSome = ((ls.find? q).isSome || q c) := by
  induction ls with
  | nil =>
    cases hq : q c <;> simp [List.find?, hq]
  | cons a ls ih =>
    by_cases hqa : q a = true
    · rw [List.cons_append, List.find?_cons_of_pos _ hqa,
        List.find?_cons_of_pos _ hqa]
      simp
    · rw [List.cons_append, List.find?_cons_of_neg _ (by simpa using hqa),
        List.find?_cons_of_neg _ (by simpa using hqa)]
      exact ih

theorem find_ext_isSome_update (db : DB) (k : Nat) (u : JobUpdate) (c e : String) :
    (find_job_by_external_id (update_job db k u) c e).isSome
      = (find_job_by_external_id db c e).isSome := by
  unfold find_job_by_external_id update_job
  exact find_isSome_map_update db.jobs k u _ (fun j => rfl)

theorem find_ext_isSome_enrich (O : Oracle) (f : Faults) (db : DB) (i : Nat)
    (c e : String) :
    (find_job_by_external_id (enrich_job O f db i).1 c e).isSome
      = (find_job_by_external_id db c e).isSome := by
  unfold enrich_job
  repeat' split
  all_goals first
    | rfl
    | exact find_ext_isSome_update _ _ _ _ _

theorem find_ext_isSome_enrichPath (O : Oracle) (f : Faults) (db : DB) (i : Nat)
    (c e : String) :
    (find_job_by_external_id (enrichPath O f db i).1 c e).isSome
      = (find_job_by_external_id db c e).isSome := by
  unfold enrichPath
  split
  · exact find_ext_isSome_enrich _ _ _ _ _ _
  · rw [show (update_job (enrich_job O f db i).1 i statusActive,
        Outcome.newEnrich, (enrich_job O f db i).2).1
      = update_job (enrich_job O f db i).1 i statusActive from rfl]
    rw [find_ext_isSome_update, find_ext_isSome_enrich]

theorem find_ext_isSome_create (db : DB) (p : RawPosting) (dh : Option String)
    (c e : String)
    (h : (find_job_by_external_id db c e).isSome = true) :
    (find_job_by_external_id (create_job db p dh).2 c e).isSome = true := by
  unfold find_job_by_external_id at h ⊢
  rw [show (create_job db p dh).2.jobs = db.jobs ++ [(create_job db p dh).1] from rfl]
  rw [find_isSome_append, h]
  rfl

theorem find_ext_isSome_processPosting (H : String → String) (O : Oracle) (db : DB)
    (p : RawPosting) (f : Faults) (c e : String)
    (h : (find_job_by_external_id db c e).isSome = true) :
    (find_job_by_external_id (processPosting H O db p f).1 c e).isSome = true := by
  by_cases hf1 : f.findByExtId = true
  · simpa [processPosting, hf1] using h
  cases hfe : find_job_by_external_id db p.company_name p.external_id with
  | some j => simpa [processPosting, hf1, hfe] using h
  | none =>
  by_cases hf2 : f.createJob = true
  · simpa [processPosting, hf1, hfe, hf2] using h
  by_cases hd : (p.description_raw == "") = true
  · have hx : (processPosting H O db p f).1
        = (enrichPath O f (create_job db p none).2 (create_job db p none).1.id).1 := by
      simp [processPosting, hf1, hfe, hf2, hd]
    rw [hx, find_ext_isSome_enrichPath]
    exact find_ext_isSome_create db p none c e h
  by_cases hh : (H p.description_raw == "") = true
  · have hx : (processPosting H O db p f).1
        = (enrichPath O f (create_job db p (some (H p.description_raw))).2
            (create_job db p (some (H p.description_raw))).1.id).1 := by
      simp [processPosting, hf1, hfe, hf2, hd, hh]
    rw [hx, find_ext_isSome_enrichPath]
    exact find_ext_isSome_create db p _ c e h
  by_cases hf3 : f.findByHash = true
  · have hx : (processPosting H O db p f).1
        = (create_job db p (some (H p.description_raw))).2 := by
      simp [processPosting, hf1, hfe, hf2, hd, hh, hf3]
    rw [hx]
    exact find_ext_isSome_create db p _ c e h
  cases hfd : find_job_by_description_hash
      (create_job db p (some (H p.description_raw))).2 (H p.description_raw) with
  | some donor =>
    by_cases hf4 : f.updateClone = true
    · have hx : (processPosting H O db p f).1
          = (create_job db p (some (H p.description_raw))).2 := by
        simp [processPosting, hf1, hfe, hf2, hd, hh, hf3, hfd, hf4]
      rw [hx]
      exact find_ext_isSome_create db p _ c e h
    · have hx : (processPosting H O db p f).1
          = update_job (create_job db p (some (H p.description_raw))).2
              (create_job db p (some (H p.description_raw))).1.id (cloneUpdate donor) := by
        simp [processPosting, hf1, hfe, hf2, hd, hh, hf3, hfd, hf4]
      rw [hx, find_ext_isSome_update]
      exact find_ext_isSome_create db p _ c e h
  | none =>
    have hx : (processPosting H O db p f).1
        = (enrichPath O f (create_job db p (some (H p.description_raw))).2
            (create_job db p (some (H p.description_raw))).1.id).1 := by
      simp [processPosting, hf1, hfe, hf2, hd, hh, hf3, hfd]
    rw [hx, find_ext_isSome_enrichPath]
    exact find_ext_isSome_create db p _ c e h

theorem create_job_has_key (db : DB) (p : RawPosting) (dh : Option String) :
    (find_job_by_external_id (create_job db p dh).2
        p.company_name p.external_id).isSome = true := by
  unfold find_job_by_external_id
  rw [show (create_job db p dh).2.jobs = db.jobs ++ [(create_job db p dh).1] from rfl]
  rw [find_isSome_append]
  simp
  exact Or.inr ⟨rfl, rfl⟩

theorem processPosting_establishes_key (H : String → String) (O : Oracle) (db : DB)
    (p : RawPosting) :
    (find_job_by_external_id (processPosting H O db p noFaults).1
        p.company_name p.external_id).isSome = true := by
  cases hfe : find_job_by_external_id db p.company_name p.external_id with
  | some j =>
    have hx : (processPosting H O db p noFaults).1 = db := by
      simp [processPosting, noFaults, hfe]
    rw [hx, hfe]
    rfl
  | none =>
  by_cases hd : (p.description_raw == "") = true
  · have hx : (processPosting H O db p noFaults).1
        = (enrichPath O noFaults (create_job db p none).2 (create_job db p none).1.id).1 := by
      simp [processPosting, noFaults, hfe, hd]
    rw [hx, find_ext_isSome_enrichPath]
    exact create_job_has_key db p none
  by_cases hh : (H p.description_raw == "") = true
  · have hx : (processPosting H O db p noFaults).1
        = (enrichPath O noFaults (create_job db p (some (H p.description_raw))).2
            (create_job db p (some (H p.description_raw))).1.id).1 := by
      simp [processPosting, noFaults, hfe, hd, hh]
    rw [hx, find_ext_isSome_enrichPath]
    exact create_job_has_key db p _
  cases hfd : find_job_by_description_hash
      (create_job db p (some (H p.description_raw))).2 (H p.description_raw) with
  | some donor =>
    have hx : (processPosting H O db p noFaults).1
        = update_job (create_job db p (some (H p.description_raw))).2
            (create_job db p (some (H p.description_raw))).1.id (cloneUpdate donor) := by
      simp [processPosting, noFaults, hfe, hd, hh, hfd]
    rw [hx, find_ext_isSome_update]
    exact create_job_has_key db p _
  | none =>
    have hx : (processPosting H O db p noFaults).1
        = (enrichPath O noFaults (create_job db p (some (H p.description_raw))).2
            (create_job db p (some (H p.description_raw))).1.id).1 := by
      simp [processPosting, noFaults, hfe, hd, hh, hfd]
    rw [hx, find_ext_isSome_enrichPath]
    exact create_job_has_key db p _

theorem processPosting_noFaults_not_errored (H : String → String) (O : Oracle)
    (db : DB) (p : RawPosting) :
    (processPosting H O db p noFaults).2.1 ≠ Outcome.errored := by
  cases hfe : find_job_by_external_id db p.company_name p.external_id with
  | some j => simp [processPosting, noFaults, hfe]
  | none =>
  by_cases hd : (p.description_raw == "") = true
  · simp [processPosting, enrichPath, noFaults, hfe, hd]
  by_cases hh : (H p.description_raw == "") = true
  · simp [processPosting, enrichPath, noFaults, hfe, hd, hh]
  cases hfd : find_job_by_description_hash
      (create_job db p (some (H p.description_raw))).2 (H p.description_raw) with
  | some donor => simp [processPosting, enrichPath, noFaults, hfe, hd, hh, hfd]
  | none => simp [processPosting, enrichPath, noFaults, hfe, hd, hh, hfd]

theorem ingestLoop_keeps_key (H : String → String) (O : Oracle)
    (L : List (RawPosting × Faults)) :
    ∀ (st : LoopState) (c e : String),
      (find_job_by_external_id st.db c e).isSome = true →
      (find_job_by_external_id (ingestLoop H O L st).db c e).isSome = true := by
  induction L with
  | nil => intro st c e h; exact h
  | cons pf L ih =>
    intro st c e h
    have h1 : ingestLoop H O (pf :: L) st = ingestLoop H O L (ingestStep H O st pf) := rfl
    rw [h1]
    apply ih
    have h2 : (ingestStep H O st pf).db = (processPosting H O st.db pf.1 pf.2).1 := rfl
    rw [h2]
    exact find_ext_isSome_processPosting H O st.db pf.1 pf.2 c e h

theorem ingestLoop_establishes_keys (H : String → String) (O : Oracle)
    (l : List RawPosting) :
    ∀ (st : LoopState) (p : RawPosting), p ∈ l →
      (find_job_by_external_id
          (ingestLoop H O (l.map (fun q => (q, noFaults))) st).db
          p.company_name p.external_id).isSome = true := by
  induction l with
  | nil => intro st p hp; exact absurd hp (List.not_mem_nil p)
  | cons a l ih =>
    intro st p hp
    have h1 : ingestLoop H O ((a :: l).map (fun q => (q, noFaults))) st
        = ingestLoop H O (l.map (fun q => (q, noFaults)))
            (ingestStep H O st (a, noFaults)) := rfl
    rw [h1]
    rcases List.mem_cons.mp hp with rfl | hpl
    · apply ingestLoop_keeps_key
      have h2 : (ingestStep H O st (p, noFaults)).db
          = (processPosting H O st.db p noFaults).1 := rfl
      rw [h2]
      exact processPosting_establishes_key H O st.db p
    · exact ih _ p hpl

theorem processPosting_skip (H : String → String) (O : Oracle) (db : DB)
    (p : RawPosting)
    (h : (find_job_by_external_id db p.company_name p.external_id).isSome = true) :
    processPosting H O db p noFaults = (db, Outcome.skipped, {}) := by
  obtain ⟨j, hj⟩ := Option.isSome_iff_exists.mp h
  simp [processPosting, noFaults, hj]

theorem ingestLoop_all_skip (H : String → String) (O : Oracle) (l : List RawPosting) :
    ∀ st : LoopState,
      (∀ p ∈ l, (find_job_by_external_id st.db
          p.company_name p.external_id).isSome = true) →
      (ingestLoop H O (l.map (fun q => (q, noFaults))) st).db = st.db
        ∧ (ingestLoop H O (l.map (fun q => (q, noFaults))) st).stats.skipped
            = st.stats.skipped + l.length
        ∧ (ingestLoop H O (l.map (fun q => (q, noFaults))) st).stats.new = st.stats.new
        ∧ (ingestLoop H O (l.map (fun q => (q, noFaults))) st).stats.errors
            = st.stats.errors := by
  induction l with
  | nil => intro st h; exact ⟨rfl, by simp [ingestLoop], rfl, rfl⟩
  | cons a l ih =>
    intro st h
    have hskip := processPosting_skip H O st.db a (h a (by simp))
    have h1 : ingestLoop H O ((a :: l).map (fun q => (q, noFaults))) st
        = ingestLoop H O (l.map (fun q => (q, noFaults)))
            (ingestStep H O st (a, noFaults)) := rfl
    have h2 : ingestStep H O st (a, noFaults)
        = { db := st.db, stats := applyOutcome st.stats Outcome.skipped
            eff := st.eff.add {} } := by
      simp [ingestStep, hskip]
    rw [h1, h2]
    have ih2 := ih { db := st.db, stats := applyOutcome st.stats Outcome.skipped
                     eff := st.eff.add {} } (fun q hq => h q (by simp [hq]))
    obtain ⟨ha, hb, hc, hd⟩ := ih2
    refine ⟨ha, ?_, ?_, ?_⟩
    · rw [hb]
      simp [applyOutcome]
      omega
    · rw [hc]
      simp [applyOutcome]
    · rw [hd]
      simp [applyOutcome]

theorem applyOutcome_errors_of_ne (s : Stats) (o : Outcome)
    (h : o ≠ Outcome.errored) :
    (applyOutcome s o).errors = s.errors := by
  cases o
  · rfl
  · rfl
  · rfl
  · exact absurd rfl h

theorem ingestLoop_noFaults_errors (H : String → String) (O : Oracle)
    (l : List RawPosting) :
    ∀ st : LoopState,
      (ingestLoop H O (l.map (fun q => (q, noFaults))) st).stats.errors
        = st.stats.errors := by
  induction l with
  | nil => intro st; rfl
  | cons a l ih =>
    intro st
    have h1 : ingestLoop H O ((a :: l).map (fun q => (q, noFaults))) st
        = ingestLoop H O (l.map (fun q => (q, noFaults)))
            (ingestStep H O st (a, noFaults)) := rfl
    rw [h1, ih]
    have h2 : (ingestStep H O st (a, noFaults)).stats
        = applyOutcome st.stats (processPosting H O st.db a noFaults).2.1 := rfl
    rw [h2, applyOutcome_errors_of_ne _ _
      (processPosting_noFaults_not_errored H O st.db a)]

/-- Claim C8 (amended): re-running a source against unchanged upstream
data with no faults yields new = 0 and errors = 0, and skipped equal
to the whole fetched list, which equals the first run's new plus
skipped (so skipped equals the first run's new exactly when the first
run skipped nothing). -/
theorem C8_idempotence_amended (H : String → String) (O : Oracle) (source : String)
    (t0 t1 t2 t3 : Nat) (db : DB) (l : List RawPosting)
    (r1 r2 : DB × IngestResult)
    (hr1 : r1 = ingest_jobs H O source t0 t1
        (Except.ok (l.map (fun p => (p, noFaults)))) db)
    (hr2 : r2 = ingest_jobs H O source t2 t3
        (Except.ok (l.map (fun p => (p, noFaults)))) r1.1) :
    r2.2.stats.new = 0 ∧ r2.2.stats.errors = 0
      ∧ r2.2.stats.skipped = l.length
      ∧ r1.2.stats.errors = 0
      ∧ r2.2.stats.skipped = r1.2.stats.new + r1.2.stats.skipped := by
  subst hr2
  subst hr1
  have hkeys : ∀ p ∈ l, (find_job_by_external_id
      (ingestLoop H O (l.map (fun p => (p, noFaults)))
        { db := (insert_scraping_log db source t0).2
          stats := { fetched := (l.map (fun p => (p, noFaults))).length }
          eff := {} }).db
      p.company_name p.external_id).isSome = true :=
    fun p hp => ingestLoop_establishes_keys H O l _ p hp
  have hkeys2 : ∀ p ∈ l, (find_job_by_external_id
      (insert_scraping_log (ingest_jobs H O source t0 t1
        (Except.ok (l.map (fun p => (p, noFaults)))) db).1 source t2).2
      p.company_name p.external_id).isSome = true :=
    fun p hp => hkeys p hp
  have hskip2 := ingestLoop_all_skip H O l
    { db := (insert_scraping_log (ingest_jobs H O source t0 t1
        (Except.ok (l.map (fun p => (p, noFaults)))) db).1 source t2).2
      stats := { fetched := (l.map (fun p => (p, noFaults))).length }
      eff := {} } hkeys2
  have hnew2 : (ingest_jobs H O source t2 t3
      (Except.ok (l.map (fun p => (p, noFaults))))
      (ingest_jobs H O source t0 t1
        (Except.ok (l.map (fun p => (p, noFaults)))) db).1).2.stats.new = 0 :=
    hskip2.2.2.1
  have herr2 : (ingest_jobs H O source t2 t3
      (Except.ok (l.map (fun p => (p, noFaults))))
      (ingest_jobs H O source t0 t1
        (Except.ok (l.map (fun p => (p, noFaults)))) db).1).2.stats.errors = 0 :=
    hskip2.2.2.2
  have hsk2 : (ingest_jobs H O source t2 t3
      (Except.ok (l.map (fun p => (p, noFaults))))
      (ingest_jobs H O source t0 t1
        (Except.ok (l.map (fun p => (p, noFaults)))) db).1).2.stats.skipped
      = l.length := by
    show (ingestLoop H O (l.map (fun p => (p, noFaults)))
      { db := (insert_scraping_log (ingest_jobs H O source t0 t1
          (Except.ok (l.map (fun p => (p, noFaults)))) db).1 source t2).2
        stats := { fetched := (l.map (fun p => (p, noFaults))).length }
        eff := {} }).stats.skipped = l.length
    rw [hskip2.2.1]
    simp
  have herr1 : (ingest_jobs H O source t0 t1
      (Except.ok (l.map (fun p => (p, noFaults)))) db).2.stats.errors = 0 :=
    ingestLoop_noFaults_errors H O l
      { db := (insert_scraping_log db source t0).2
        stats := { fetched := (l.map (fun p => (p, noFaults))).length }
        eff := {} }
  have hsum : (ingest_jobs H O source t0 t1
      (Except.ok (l.map (fun p => (p, noFaults)))) db).2.stats.new
      + (ingest_jobs H O source t0 t1
        (Except.ok (l.map (fun p => (p, noFaults)))) db).2.stats.skipped
      + (ingest_jobs H O source t0 t1
        (Except.ok (l.map (fun p => (p, noFaults)))) db).2.stats.errors
      = l.length := by
    show (ingestLoop H O (l.map (fun p => (p, noFaults)))
        { db := (insert_scraping_log db source t0).2
          stats := { fetched := (l.map (fun p => (p, noFaults))).length }
          eff := {} }).stats.new
      + (ingestLoop H O (l.map (fun p => (p, noFaults)))
        { db := (insert_scraping_log db source t0).2
          stats := { fetched := (l.map (fun p => (p, noFaults))).length }
          eff := {} }).stats.skipped
      + (ingestLoop H O (l.map (fun p => (p, noFaults)))
        { db := (insert_scraping_log db source t0).2
          stats := { fetched := (l.map (fun p => (p, noFaults))).length }
          eff := {} }).stats.errors = l.length
    rw [ingestLoop_sum H O (l.map (fun p => (p, noFaults)))
      { db := (insert_scraping_log db source t0).2
        stats := { fetched := (l.map (fun p => (p, noFaults))).length }
        eff := {} }]
    simp
  exact ⟨hnew2, herr2, hsk2, herr1, by omega⟩

/-- Existing row sharing its identity key with the witness posting. -/
def jY : JobRecord :=
  { id := 0, provider_id := "x", title := "t", description_raw := "d"
    skills_required := [], external_id := "e", external_apply_url := none
    company_name := "c", description_hash := none, status := "active"
    resume_guide_generated := none, prep_guide_generated := none
    embedding := none, salary_range := none }

def dbY : DB := { jobs := [jY], nextId := 1, logs := [], nextLogId := 0 }

/-- A posting whose identity key matches the pre-existing row. -/
def pY : RawPosting :=
  { external_id := "e", title := "t", description_raw := "d"
    company_name := "c", external_apply_url := none, skills_required := [] }

/-- Claim C8 as stated is false on the code: when the first run itself
skips a posting (its identity key already existed before the first
run), the second run's skipped count equals fetched, not the first
run's new count. -/
theorem C8_idempotence_counterexample :
    (ingest_jobs H0 O0 "pwc" 2 3 (Except.ok [(pY, noFaults)])
        (ingest_jobs H0 O0 "pwc" 0 1 (Except.ok [(pY, noFaults)]) dbY).1).2.stats.new = 0
      ∧ (ingest_jobs H0 O0 "pwc" 2 3 (Except.ok [(pY, noFaults)])
          (ingest_jobs H0 O0 "pwc" 0 1
            (Except.ok [(pY, noFaults)]) dbY).1).2.stats.skipped = 1
      ∧ (ingest_jobs H0 O0 "pwc" 0 1 (Except.ok [(pY, noFaults)]) dbY).2.stats.new = 0
      ∧ ¬ ((ingest_jobs H0 O0 "pwc" 2 3 (Except.ok [(pY, noFaults)])
            (ingest_jobs H0 O0 "pwc" 0 1
              (Except.ok [(pY, noFaults)]) dbY).1).2.stats.skipped
          = (ingest_jobs H0 O0 "pwc" 0 1
              (Except.ok [(pY, noFaults)]) dbY).2.stats.new) := by
  decide

theorem C8_idempotence_amended_witness :
    ((ingest_jobs H0 O0 "pwc" 2 3 (Except.ok ([pY].map (fun p => (p, noFaults))))
        (ingest_jobs H0 O0 "pwc" 0 1
          (Except.ok ([pY].map (fun p => (p, noFaults)))) dbY).1).2.stats.new = 0)
      ∧ ((ingest_jobs H0 O0 "pwc" 2 3 (Except.ok ([pY].map (fun p => (p, noFaults))))
          (ingest_jobs H0 O0 "pwc" 0 1
            (Except.ok ([pY].map (fun p => (p, noFaults)))) dbY).1).2.stats.errors = 0)
      ∧ ((ingest_jobs H0 O0 "pwc" 2 3 (Except.ok ([pY].map (fun p => (p, noFaults))))
          (ingest_jobs H0 O0 "pwc" 0 1
            (Except.ok ([pY].map (fun p => (p, noFaults)))) dbY).1).2.stats.skipped
        = [pY].length)
      ∧ ((ingest_jobs H0 O0 "pwc" 0 1
          (Except.ok ([pY].map (fun p => (p, noFaults)))) dbY).2.stats.errors = 0)
      ∧ ((ingest_jobs H0 O0 "pwc" 2 3 (Except.ok ([pY].map (fun p => (p, noFaults))))
          (ingest_jobs H0 O0 "pwc" 0 1
            (Except.ok ([pY].map (fun p => (p, noFaults)))) dbY).1).2.stats.skipped
        = (ingest_jobs H0 O0 "pwc" 0 1
            (Except.ok ([pY].map (fun p => (p, noFaults)))) dbY).2.stats.new
          + (ingest_jobs H0 O0 "pwc" 0 1
            (Except.ok ([pY].map (fun p => (p, noFaults)))) dbY).2.stats.skipped) :=
  C8_idempotence_amended H0 O0 "pwc" 0 1 2 3 dbY [pY] _ _ rfl rfl
